import Mathlib

/-!
Verification of the TimeWise2 monthly period aggregator.

Shallow embedding of the source:
* `src/Dashboard.tsx` — `calculateWorkingDays`, `getMonthPeriod`,
  `calculateMonthStats`;
* `src/dashboard.tsx` — `getWorkingDaysInPeriod` (same day loop);
* `src/unnamed/part_000` (timesheet calendar) — `timesheetsByDate`.

Modelling conventions:
* A JavaScript `Date` holding a calendar date (local/UTC midnight) is embedded
  as the triple (year, 0-based month, day).  Ordering of `Date` objects and
  `addDays` steps are mediated by the (injective, order-preserving) conversion
  to a day number (days since 1970-01-01, civil-calendar arithmetic).
* A record field that may be `undefined` in JS is an `Option`.  `new Date(x)`
  of a missing field is an Invalid Date, whose order comparisons are all
  false; this is modelled by the `Option.none` branch returning `false`.
* `parseFloat(t.total_hours || 0)` on a well-formed numeric string is the
  rational it denotes, and `0` when the field is missing.
-/

namespace TimeWise

/-- A calendar date as JavaScript exposes it: `getFullYear`, `getMonth`
(0-based: 0 = January … 11 = December), `getDate` (1-based day of month). -/
structure JSDate where
  year : Int
  month : Int
  day : Int
deriving DecidableEq, Repr

/-- Embeds `new Date(y, m, d)` for the day arguments this program uses (20 and 21,
valid in every month): JavaScript normalises an out-of-range month index into
the year (floor division), which is what produces the December-of-prior-year
rollover in `getMonthPeriod`. -/
def mkDate (y m d : Int) : JSDate :=
  ⟨y + m / 12, m % 12, d⟩

/-- Days since 1970-01-01 of a civil date (proleptic Gregorian calendar),
the count underlying JavaScript `Date` ordering and day stepping. -/
def toDayNumber (dt : JSDate) : Int :=
  let m1 := dt.month + 1
  let y := if m1 ≤ 2 then dt.year - 1 else dt.year
  let era := y / 400
  let yoe := y - era * 400
  let mp := (m1 + 9) % 12
  let doy := (153 * mp + 2) / 5 + dt.day - 1
  let doe := yoe * 365 + yoe / 4 - yoe / 100 + doy
  era * 146097 + doe - 719468

/-- JavaScript `getDay()` of the day number: 0 = Sunday … 6 = Saturday
(day 0 = 1970-01-01 was a Thursday, `getDay() = 4`). -/
def dayOfWeek (z : Int) : Int := (z + 4) % 7

/-- Embeds `isWeekend` (date-fns) and `getDay() === 0 || getDay() === 6`. -/
def isWeekendB (z : Int) : Bool := dayOfWeek z == 0 || dayOfWeek z == 6

/-- The body of the `while (current <= endDate)` loop of
`calculateWorkingDays`, unrolled over the number of remaining iterations:
each iteration tests `isWeekend(current)` and steps `current` one day. -/
def countFrom (z : Int) : Nat → Nat
  | 0 => 0
  | n + 1 => (if isWeekendB z then 0 else 1) + countFrom (z + 1) n

/-- Embeds `calculateWorkingDays(startDate, endDate)` from `src/Dashboard.tsx`
(`getWorkingDaysInPeriod` in `src/dashboard.tsx` is the same loop): counts the
non-weekend days from `startDate` while `current <= endDate`; the loop runs
once per day of the inclusive range, i.e. `end − start + 1` times (zero times
when `start > end`). -/
def calculateWorkingDays (startDate endDate : JSDate) : Nat :=
  countFrom (toDayNumber startDate) (toDayNumber endDate + 1 - toDayNumber startDate).toNat

/-- Embeds `getMonthPeriod(date)` from `src/Dashboard.tsx`:
start `new Date(year, month - 1, 21)`, end `new Date(year, month, 20)`. -/
def getMonthPeriod (date : JSDate) : JSDate × JSDate :=
  (mkDate date.year (date.month - 1) 21, mkDate date.year date.month 20)

/-- The `work_type` values the dashboard and the calendar test for
(`trabalho_normal`, `trabalho_reduzido`, `trabalho_fim_semana`, `ferias`,
`baixa`, `falta`). -/
inductive WorkType where
  | trabalho_normal
  | trabalho_reduzido
  | trabalho_fim_semana
  | ferias
  | baixa
  | falta
deriving DecidableEq, Repr

/-- A timesheet record as the dashboard and calendar read it: `work_type`,
`date`, `start_date`/`end_date` (present only on multi-day leave records) and
`total_hours`.  A field that may be absent (`undefined`) is an `Option`. -/
structure Timesheet where
  work_type : WorkType
  date : Option JSDate
  start_date : Option JSDate
  end_date : Option JSDate
  total_hours : Option ℚ
deriving DecidableEq, Repr

/-- Embeds `parseFloat(t.total_hours || 0)`: the numeric value of the field, `0`
when it is missing. -/
def hoursVal (t : Timesheet) : ℚ := t.total_hours.getD 0

/-- The membership test of `calculateMonthStats`:
`new Date(t.date) >= periodStart && new Date(t.date) <= periodEnd`.
A missing `date` yields an Invalid Date, whose comparisons are all false. -/
def inPeriod (periodStart periodEnd : JSDate) (t : Timesheet) : Bool :=
  match t.date with
  | none => false
  | some d =>
      toDayNumber periodStart ≤ toDayNumber d ∧ toDayNumber d ≤ toDayNumber periodEnd

/-- Embeds `.reduce((sum, t) => sum + parseFloat(t.total_hours || 0), 0)`. -/
def hoursSum (l : List Timesheet) : ℚ :=
  l.foldl (fun sum t => sum + hoursVal t) 0

/-- The statistics object returned by `calculateMonthStats`. -/
structure MonthStats where
  workingDays : Nat
  filledDays : Nat
  regularHours : ℚ
  overtimeHours : ℚ
  weekendHours : ℚ
  vacationDays : Nat
  sickDays : Nat
  absentDays : Nat
  timesheets : List Timesheet
deriving DecidableEq, Repr

/-- Embeds `calculateMonthStats(periodStart, periodEnd)` from `src/Dashboard.tsx`,
with the ambient `timesheets` array passed explicitly: filters the records
whose `date` lies in the period, then counts and sums by `work_type`. -/
def calculateMonthStats (timesheets : List Timesheet)
    (periodStart periodEnd : JSDate) : MonthStats :=
  let periodsTimesheets := timesheets.filter (inPeriod periodStart periodEnd)
  { workingDays := calculateWorkingDays periodStart periodEnd
    filledDays := periodsTimesheets.length
    regularHours :=
      hoursSum (periodsTimesheets.filter (fun t => decide (t.work_type = .trabalho_normal)))
    overtimeHours :=
      hoursSum (periodsTimesheets.filter (fun t => decide (t.work_type = .trabalho_reduzido)))
    weekendHours :=
      hoursSum (periodsTimesheets.filter (fun t => decide (t.work_type = .trabalho_fim_semana)))
    vacationDays :=
      (periodsTimesheets.filter (fun t => decide (t.work_type = .ferias))).length
    sickDays :=
      (periodsTimesheets.filter (fun t => decide (t.work_type = .baixa))).length
    absentDays :=
      (periodsTimesheets.filter (fun t => decide (t.work_type = .falta))).length
    timesheets := periodsTimesheets }

/-- Embeds `eachDayOfInterval({start, end})` (date-fns) over day numbers: the days
from `s` to `e` inclusive.  (date-fns raises on `s > e`; the calendar-map
theorems restrict to well-formed records, see `entryOk`.) -/
def eachDayOfInterval (s e : Int) : List Int :=
  (List.range (e + 1 - s).toNat).map (fun i => s + i)

/-- The per-record branch of the `timesheetsByDate` reduce in
`src/unnamed/part_000`: a `ferias`/`baixa` record with both `start_date` and
`end_date` writes one key per day of its range; every other record writes the
single key of its `date`.  `none` marks the records on which the original
would throw (a missing `date` reaching `format(new Date(undefined))`). -/
def dateKeys (t : Timesheet) : Option (List Int) :=
  match t.work_type, t.start_date, t.end_date with
  | .ferias, some s, some e => some (eachDayOfInterval (toDayNumber s) (toDayNumber e))
  | .baixa, some s, some e => some (eachDayOfInterval (toDayNumber s) (toDayNumber e))
  | _, _, _ => t.date.map (fun d => [toDayNumber d])

/-- The day keys a record writes into the calendar map. -/
def daysOf (t : Timesheet) : List Int := (dateKeys t).getD []

/-- A record the `timesheetsByDate` reduce processes without throwing: range
records have a non-empty well-ordered range, the rest have a `date`. -/
def entryOk (t : Timesheet) : Bool :=
  match t.work_type, t.start_date, t.end_date with
  | .ferias, some s, some e => toDayNumber s ≤ toDayNumber e
  | .baixa, some s, some e => toDayNumber s ≤ toDayNumber e
  | _, _, _ => t.date.isSome

/-- The `timesheetsByDate` map of `src/unnamed/part_000`, as the lookup
function it induces: the reduce walks the list left to right and each record
assigns itself to every key in `daysOf`, overwriting what was there. -/
def timesheetsByDate (timesheets : List Timesheet) : Int → Option Timesheet :=
  timesheets.foldl
    (fun acc t => fun k => if (daysOf t).contains k then some t else acc k)
    (fun _ => none)

/-- A possible error of the spec's working-day counter. -/
inductive RangeError where
  | invalidRange
deriving DecidableEq, Repr

/-- Follows `countWorkingDays` as §4.1 of the spec words it, for comparison with the
source's `calculateWorkingDays`: identical count, but the spec demands an
`InvalidRangeError` when `start > end`. -/
def countWorkingDaysSpecModel (startDate endDate : JSDate) :
    Except RangeError Nat :=
  if toDayNumber endDate < toDayNumber startDate then
    .error .invalidRange
  else
    .ok (calculateWorkingDays startDate endDate)

/-- The three work categories whose hours `calculateMonthStats` sums. -/
def isWorkW (w : WorkType) : Bool :=
  decide (w = .trabalho_normal) || decide (w = .trabalho_reduzido)
    || decide (w = .trabalho_fim_semana)

/-- The three leave categories `calculateMonthStats` only counts. -/
def isLeaveW (w : WorkType) : Bool :=
  decide (w = .ferias) || decide (w = .baixa) || decide (w = .falta)

/-- A record of one of the three work categories. -/
def isWorkCategory (t : Timesheet) : Bool := isWorkW t.work_type

/-- A record of one of the three leave categories. -/
def isLeaveCategory (t : Timesheet) : Bool := isLeaveW t.work_type

/-- Rewrites the `total_hours` of every leave record by `f`, leaving work
records untouched; used to state that leave hours never enter the sums. -/
def setLeaveHours (f : Timesheet → Option ℚ) (t : Timesheet) : Timesheet :=
  if isLeaveCategory t then { t with total_hours := f t } else t

/-- Rewrites the `start_date`/`end_date` of every record; used to state that
the aggregator never reads the range fields. -/
def setRange (f g : Timesheet → Option JSDate) (t : Timesheet) : Timesheet :=
  { t with start_date := f t, end_date := g t }

section SampleRecords

/-- Spec §8 scenario 6, first record: 2024-03-01, regular work, 8 hours. -/
def sampleRegular : Timesheet :=
  ⟨.trabalho_normal, some ⟨2024, 2, 1⟩, none, none, some 8⟩

/-- Spec §8 scenario 6, second record: 2024-03-02 (a Saturday), weekend
work, 4 hours. -/
def sampleWeekend : Timesheet :=
  ⟨.trabalho_fim_semana, some ⟨2024, 2, 2⟩, none, none, some 4⟩

/-- Spec §8 scenario 6, third record: vacation 2024-02-25 … 2024-02-27,
carried as a `start_date`/`end_date` range (per the §3 invariant, range
records have no single `date`). -/
def sampleVacation : Timesheet :=
  ⟨.ferias, none, some ⟨2024, 1, 25⟩, some ⟨2024, 1, 27⟩, none⟩

/-- A vacation record spanning `[periodEnd − 2, periodEnd + 3]` for the
period ending 2024-03-20: the range 2024-03-18 … 2024-03-23. -/
def sampleSpanningVacation : Timesheet :=
  ⟨.ferias, none, some ⟨2024, 2, 18⟩, some ⟨2024, 2, 23⟩, none⟩

/-- A malformed vacation record: range type, no `start_date`/`end_date`,
but a `date` (2024-03-01) inside the period. -/
def sampleMalformedVacation : Timesheet :=
  ⟨.ferias, some ⟨2024, 2, 1⟩, none, none, none⟩

/-- An absence record on 2024-03-01, the same day as `sampleRegular`. -/
def sampleAbsence : Timesheet :=
  ⟨.falta, some ⟨2024, 2, 1⟩, none, none, none⟩

end SampleRecords

section Lemmas

theorem hoursSum_foldl (l : List Timesheet) :
    ∀ a : ℚ, l.foldl (fun sum t => sum + hoursVal t) a = a + hoursSum l := by
  induction l with
  | nil => intro a; simp only [hoursSum, List.foldl_nil]; ring
  | cons t l ih =>
      intro a
      simp only [hoursSum, List.foldl_cons]
      rw [ih (a + hoursVal t), ih (0 + hoursVal t)]
      ring

theorem hoursSum_cons (t : Timesheet) (l : List Timesheet) :
    hoursSum (t :: l) = hoursVal t + hoursSum l := by
  simp only [hoursSum, List.foldl_cons]
  rw [hoursSum_foldl l (0 + hoursVal t)]
  simp only [hoursSum]
  ring

theorem countFrom_eq_countP (n : Nat) :
    ∀ z : Int, countFrom z n
      = (List.range n).countP (fun i : Nat => !isWeekendB (z + (i : Int))) := by
  induction n with
  | zero => intro z; simp [countFrom]
  | succ n ih =>
      intro z
      rw [List.range_succ_eq_map]
      rw [List.countP_cons, List.countP_map]
      have hc : ((fun i : Nat => !isWeekendB (z + (i : Int))) ∘ Nat.succ)
          = fun i : Nat => !isWeekendB (z + 1 + (i : Int)) := by
        funext j
        simp only [Function.comp]
        congr 1
        push_cast
        ring
      rw [hc, ← ih (z + 1)]
      simp only [countFrom, Nat.cast_zero, add_zero]
      cases h : isWeekendB z <;> simp [h] <;> omega

theorem countFrom_le (n : Nat) : ∀ z : Int, countFrom z n ≤ n := by
  induction n with
  | zero => intro z; simp [countFrom]
  | succ n ih =>
      intro z
      simp only [countFrom]
      have := ih (z + 1)
      cases h : isWeekendB z <;> simp [h] <;> omega

theorem filter_map_comm (F : Timesheet → Timesheet) (p : Timesheet → Bool)
    (hF : ∀ t, p (F t) = p t) (ts : List Timesheet) :
    (ts.map F).filter p = (ts.filter p).map F := by
  induction ts with
  | nil => rfl
  | cons t l ih =>
      simp only [List.map_cons, List.filter_cons, hF t]
      cases hp : p t
      · simpa using ih
      · simpa using ih

theorem filter_map_id (F : Timesheet → Timesheet) (p : Timesheet → Bool)
    (hF : ∀ t, p (F t) = p t) (hFid : ∀ t, p t = true → F t = t)
    (ts : List Timesheet) :
    (ts.map F).filter p = ts.filter p := by
  induction ts with
  | nil => rfl
  | cons t l ih =>
      simp only [List.map_cons, List.filter_cons, hF t]
      cases hp : p t
      · simpa using ih
      · rw [hFid t hp]
        simpa using ih

theorem hoursSum_map_eq (F : Timesheet → Timesheet)
    (hF : ∀ t, hoursVal (F t) = hoursVal t) (ts : List Timesheet) :
    hoursSum (ts.map F) = hoursSum ts := by
  induction ts with
  | nil => rfl
  | cons t l ih => simp only [List.map_cons, hoursSum_cons, hF t, ih]

theorem hoursSum_filter_split (l : List Timesheet) :
    hoursSum (l.filter (fun t => decide (t.work_type = .trabalho_normal)))
      + hoursSum (l.filter (fun t => decide (t.work_type = .trabalho_reduzido)))
      + hoursSum (l.filter (fun t => decide (t.work_type = .trabalho_fim_semana)))
      = hoursSum (l.filter isWorkCategory) := by
  induction l with
  | nil => simp [hoursSum]
  | cons t l ih =>
      obtain ⟨wt, d, sd, ed, th⟩ := t
      simp only [List.filter_cons, isWorkCategory, isWorkW]
      cases wt <;> simp [hoursSum_cons, ← ih] <;> ring

theorem setRange_inPeriod (f g : Timesheet → Option JSDate) (ps pe : JSDate) :
    ∀ t, inPeriod ps pe (setRange f g t) = inPeriod ps pe t :=
  fun _ => rfl

theorem setLeaveHours_pred (f : Timesheet → Option ℚ) (ps pe : JSDate)
    (w : WorkType) (t : Timesheet) :
    (decide ((setLeaveHours f t).work_type = w) && inPeriod ps pe (setLeaveHours f t))
      = (decide (t.work_type = w) && inPeriod ps pe t) := by
  simp only [setLeaveHours]
  split <;> rfl

theorem setLeaveHours_fix (f : Timesheet → Option ℚ) (ps pe : JSDate)
    (w : WorkType) (hw : isLeaveW w = false) (t : Timesheet)
    (hp : (decide (t.work_type = w) && inPeriod ps pe t) = true) :
    setLeaveHours f t = t := by
  have hwt : t.work_type = w := by
    have := (Bool.and_eq_true _ _).mp hp
    exact of_decide_eq_true this.1
  simp [setLeaveHours, isLeaveCategory, hwt, hw]

end Lemmas

/-- C1: `getMonthPeriod` maps a reference date in (0-based) month `m` of
year `y` to the period from the 21st of the preceding month to the 20th of
month `m`, the start rolling over to December of the prior year when the
reference month is January (`m = 0`). -/
theorem getMonthPeriod_boundaries (y m d : Int) (h0 : 0 ≤ m) (h1 : m ≤ 11) :
    (getMonthPeriod ⟨y, m, d⟩).1.day = 21 ∧
    (getMonthPeriod ⟨y, m, d⟩).2.day = 20 ∧
    (getMonthPeriod ⟨y, m, d⟩).2.month = m ∧
    (getMonthPeriod ⟨y, m, d⟩).2.year = y ∧
    (m = 0 → (getMonthPeriod ⟨y, m, d⟩).1.month = 11 ∧
      (getMonthPeriod ⟨y, m, d⟩).1.year = y - 1) ∧
    (m ≠ 0 → (getMonthPeriod ⟨y, m, d⟩).1.month = m - 1 ∧
      (getMonthPeriod ⟨y, m, d⟩).1.year = y) := by
  refine ⟨?_, ?_, ?_, ?_, fun hm => ⟨?_, ?_⟩, fun hm => ⟨?_, ?_⟩⟩ <;>
    simp only [getMonthPeriod, mkDate] <;> omega

/-- Witness for C1, at the January rollover: reference 2025-01-15 gives a
period starting 2024-12-21. -/
theorem getMonthPeriod_boundaries_witness :
    (getMonthPeriod ⟨2025, 0, 15⟩).1.month = 11 ∧
    (getMonthPeriod ⟨2025, 0, 15⟩).1.year = 2024 :=
  (getMonthPeriod_boundaries 2025 0 15 (by decide) (by decide)).2.2.2.2.1 rfl

/-- C5: on a well-ordered range, `calculateWorkingDays` returns exactly the
number of days of the inclusive range whose weekday is neither Saturday nor
Sunday, and on a 30-day range the result is at most 30. -/
theorem calculateWorkingDays_exact (s e : JSDate)
    (h : toDayNumber s ≤ toDayNumber e) :
    calculateWorkingDays s e
      = (List.range (toDayNumber e + 1 - toDayNumber s).toNat).countP
          (fun i : Nat => !isWeekendB (toDayNumber s + (i : Int))) ∧
    ((toDayNumber e + 1 - toDayNumber s).toNat = 30 →
      calculateWorkingDays s e ≤ 30) := by
  constructor
  · exact countFrom_eq_countP _ _
  · intro h30
    have := countFrom_le (toDayNumber e + 1 - toDayNumber s).toNat (toDayNumber s)
    simpa [calculateWorkingDays, h30] using countFrom_le 30 (toDayNumber s)

/-- Witness for C5: the 2024-02-21 … 2024-03-20 period (29 days) has 21
working days, matching the day-by-day weekday count. -/
theorem calculateWorkingDays_exact_witness :
    calculateWorkingDays ⟨2024, 1, 21⟩ ⟨2024, 2, 20⟩
      = (List.range (toDayNumber ⟨2024, 2, 20⟩ + 1
          - toDayNumber ⟨2024, 1, 21⟩).toNat).countP
          (fun i : Nat => !isWeekendB (toDayNumber ⟨2024, 1, 21⟩ + (i : Int))) ∧
    calculateWorkingDays ⟨2024, 1, 21⟩ ⟨2024, 2, 20⟩ = 21 :=
  ⟨(calculateWorkingDays_exact ⟨2024, 1, 21⟩ ⟨2024, 2, 20⟩ (by decide)).1,
    by decide⟩

/-- C10: `calculateWorkingDays` is total: the loop runs exactly once per day
of the inclusive range (so the count never exceeds the range length), and an
inverted range (`start > end`) runs the loop zero times and returns 0 with
no error. -/
theorem calculateWorkingDays_total (s e : JSDate) :
    calculateWorkingDays s e ≤ (toDayNumber e + 1 - toDayNumber s).toNat ∧
    (toDayNumber e < toDayNumber s → calculateWorkingDays s e = 0) := by
  constructor
  · exact countFrom_le _ _
  · intro h
    have h0 : (toDayNumber e + 1 - toDayNumber s).toNat = 0 := by omega
    simp [calculateWorkingDays, h0, countFrom]

/-- Witness for C10: a concrete inverted range returns 0. -/
theorem calculateWorkingDays_total_witness :
    calculateWorkingDays ⟨2024, 5, 10⟩ ⟨2024, 5, 1⟩ = 0 :=
  (calculateWorkingDays_total ⟨2024, 5, 10⟩ ⟨2024, 5, 1⟩).2 (by decide)

/-- C4 counterexample: on an inverted range (2024-03-02 down to 2024-03-01)
the source's `calculateWorkingDays` returns the ordinary value 0 — there is
no `InvalidRangeError` anywhere in the code — while the spec's wording
(`countWorkingDaysSpecModel`) demands the error. -/
theorem calculateWorkingDays_no_error_cex :
    toDayNumber ⟨2024, 2, 1⟩ < toDayNumber ⟨2024, 2, 2⟩ ∧
    calculateWorkingDays ⟨2024, 2, 2⟩ ⟨2024, 2, 1⟩ = 0 ∧
    countWorkingDaysSpecModel ⟨2024, 2, 2⟩ ⟨2024, 2, 1⟩
      = .error .invalidRange := by
  refine ⟨by decide, by decide, rfl⟩

/-- C4 amended: whenever `start > end` the loop body never runs and
`calculateWorkingDays` returns 0; no error is raised or propagated. -/
theorem calculateWorkingDays_inverted_range (s e : JSDate)
    (h : toDayNumber e < toDayNumber s) : calculateWorkingDays s e = 0 := by
  have h0 : (toDayNumber e + 1 - toDayNumber s).toNat = 0 := by omega
  simp [calculateWorkingDays, h0, countFrom]

/-- Witness for C4 (amended): 2024-01-10 down to 2024-01-05 returns 0. -/
theorem calculateWorkingDays_inverted_range_witness :
    calculateWorkingDays ⟨2024, 0, 10⟩ ⟨2024, 0, 5⟩ = 0 :=
  calculateWorkingDays_inverted_range ⟨2024, 0, 10⟩ ⟨2024, 0, 5⟩ (by decide)

/-- C9: `calculateMonthStats` is a pure function of its arguments: two calls
with equal record lists and equal period boundaries return identical
statistics (every field, the filtered record list included). -/
theorem calculateMonthStats_deterministic
    (ts₁ ts₂ : List Timesheet) (ps₁ ps₂ pe₁ pe₂ : JSDate)
    (hts : ts₁ = ts₂) (hps : ps₁ = ps₂) (hpe : pe₁ = pe₂) :
    calculateMonthStats ts₁ ps₁ pe₁ = calculateMonthStats ts₂ ps₂ pe₂ := by
  subst hts; subst hps; subst hpe; rfl

/-- Witness for C9 on the spec's scenario-6 inputs. -/
theorem calculateMonthStats_deterministic_witness :
    calculateMonthStats [sampleRegular, sampleWeekend, sampleVacation]
        ⟨2024, 1, 21⟩ ⟨2024, 2, 20⟩
      = calculateMonthStats [sampleRegular, sampleWeekend, sampleVacation]
          ⟨2024, 1, 21⟩ ⟨2024, 2, 20⟩ :=
  calculateMonthStats_deterministic _ _ _ _ _ _ rfl rfl rfl

/-- C3 counterexample: on the spec's scenario 6 (reference 2024-03-15; an
8-hour regular record on 2024-03-01, a 4-hour weekend record on 2024-03-02
and a vacation range 2024-02-25 … 2024-02-27), `calculateMonthStats` returns
`filledDays = 2` and `vacationDays = 0`, not the expected 5 and 3: the
vacation record carries no `date` and the aggregator never reads its range. -/
theorem scenario6_cex :
    (calculateMonthStats [sampleRegular, sampleWeekend, sampleVacation]
        ⟨2024, 1, 21⟩ ⟨2024, 2, 20⟩).filledDays ≠ 5 ∧
    (calculateMonthStats [sampleRegular, sampleWeekend, sampleVacation]
        ⟨2024, 1, 21⟩ ⟨2024, 2, 20⟩).vacationDays ≠ 3 := by
  refine ⟨by decide, by decide⟩

/-- C3 amended: on the scenario-6 input the period boundaries are
2024-02-21 … 2024-03-20 and the aggregator returns `workingDays = 21`,
`filledDays = 2`, `regularHours = 8`, `weekendHours = 4`, `vacationDays = 0`:
the two dated records are counted and summed, and the range-only vacation
record is not attributed to the period. -/
theorem scenario6_eval :
    getMonthPeriod ⟨2024, 2, 15⟩ = (⟨2024, 1, 21⟩, ⟨2024, 2, 20⟩) ∧
    calculateMonthStats [sampleRegular, sampleWeekend, sampleVacation]
        ⟨2024, 1, 21⟩ ⟨2024, 2, 20⟩
      = ⟨21, 2, 8, 0, 4, 0, 0, 0, [sampleRegular, sampleWeekend]⟩ := by
  refine ⟨by decide, ?_⟩
  have hf : List.filter (inPeriod ⟨2024, 1, 21⟩ ⟨2024, 2, 20⟩)
      [sampleRegular, sampleWeekend, sampleVacation]
      = [sampleRegular, sampleWeekend] := by decide
  have hn : List.filter (fun t => decide (t.work_type = WorkType.trabalho_normal))
      [sampleRegular, sampleWeekend] = [sampleRegular] := by decide
  have hr : List.filter (fun t => decide (t.work_type = WorkType.trabalho_reduzido))
      [sampleRegular, sampleWeekend] = [] := by decide
  have hw : List.filter (fun t => decide (t.work_type = WorkType.trabalho_fim_semana))
      [sampleRegular, sampleWeekend] = [sampleWeekend] := by decide
  simp only [calculateMonthStats, hf, hn, hr, hw, MonthStats.mk.injEq]
  refine ⟨by decide, by decide, ?_, ?_, ?_, by decide, by decide, by decide, trivial⟩ <;>
    norm_num [hoursSum, hoursVal, sampleRegular, sampleWeekend]

/-- C7 counterexample: a malformed vacation record (range type, missing
`start_date`/`end_date`, but with the in-period `date` 2024-03-01) is not
skipped: it is counted in `filledDays` and `vacationDays`. -/
theorem malformed_vacation_not_skipped_cex :
    (calculateMonthStats [sampleMalformedVacation]
        ⟨2024, 1, 21⟩ ⟨2024, 2, 20⟩).filledDays = 1 ∧
    (calculateMonthStats [sampleMalformedVacation]
        ⟨2024, 1, 21⟩ ⟨2024, 2, 20⟩).vacationDays = 1 := by
  refine ⟨by decide, by decide⟩

/-- C7 amended: the aggregator is total (it never fails), and a record with
no `date` — whatever its `work_type` and range fields — is skipped entirely:
dropping it changes no statistic and not the filtered list, so the remaining
records aggregate exactly as without it.  (A range-type record that is
missing its range but has an in-period `date` is, however, aggregated, since
membership is decided by `date` alone.) -/
theorem calculateMonthStats_skips_dateless
    (ts : List Timesheet) (ps pe : JSDate) (t : Timesheet)
    (h : t.date = none) :
    calculateMonthStats (t :: ts) ps pe = calculateMonthStats ts ps pe := by
  have hp : inPeriod ps pe t = false := by simp [inPeriod, h]
  simp [calculateMonthStats, List.filter_cons, hp]

/-- Witness for C7 (amended): prepending the dateless `sampleVacation`
record to the scenario list leaves every statistic unchanged. -/
theorem calculateMonthStats_skips_dateless_witness :
    calculateMonthStats [sampleVacation, sampleRegular, sampleWeekend]
        ⟨2024, 1, 21⟩ ⟨2024, 2, 20⟩
      = calculateMonthStats [sampleRegular, sampleWeekend]
          ⟨2024, 1, 21⟩ ⟨2024, 2, 20⟩ :=
  calculateMonthStats_skips_dateless [sampleRegular, sampleWeekend]
    ⟨2024, 1, 21⟩ ⟨2024, 2, 20⟩ sampleVacation rfl

/-- C2 counterexample: the vacation record spanning
`[periodEnd − 2, periodEnd + 3]` (range 2024-03-18 … 2024-03-23 against the
period ending 2024-03-20) has exactly 3 of its expanded days inside the
period, yet contributes 0 vacation-days — not 3 — when the period is
aggregated: `calculateMonthStats` never expands the range. -/
theorem spanning_vacation_cex :
    ((daysOf sampleSpanningVacation).filter
        (fun k => decide (toDayNumber ⟨2024, 1, 21⟩ ≤ k)
          && decide (k ≤ toDayNumber ⟨2024, 2, 20⟩))).length = 3 ∧
    (calculateMonthStats [sampleSpanningVacation]
        ⟨2024, 1, 21⟩ ⟨2024, 2, 20⟩).vacationDays = 0 ∧
    (calculateMonthStats [sampleSpanningVacation]
        ⟨2024, 1, 21⟩ ⟨2024, 2, 20⟩).vacationDays ≠ 3 := by
  refine ⟨by decide, by decide, by decide⟩

/-- C2 amended: the period aggregator does not perform day-granular range
attribution — it never reads `start_date`/`end_date` at all: rewriting the
range fields of every record arbitrarily (by `setRange f g`) leaves every
statistic of `calculateMonthStats` unchanged.  (Day-by-day range expansion
happens only in the calendar map `timesheetsByDate`, cf.
`daysOf`/`dateKeys`.) -/
theorem calculateMonthStats_ignores_ranges (ts : List Timesheet)
    (ps pe : JSDate) (f g : Timesheet → Option JSDate) :
    (calculateMonthStats (ts.map (setRange f g)) ps pe).workingDays
        = (calculateMonthStats ts ps pe).workingDays ∧
    (calculateMonthStats (ts.map (setRange f g)) ps pe).filledDays
        = (calculateMonthStats ts ps pe).filledDays ∧
    (calculateMonthStats (ts.map (setRange f g)) ps pe).regularHours
        = (calculateMonthStats ts ps pe).regularHours ∧
    (calculateMonthStats (ts.map (setRange f g)) ps pe).overtimeHours
        = (calculateMonthStats ts ps pe).overtimeHours ∧
    (calculateMonthStats (ts.map (setRange f g)) ps pe).weekendHours
        = (calculateMonthStats ts ps pe).weekendHours ∧
    (calculateMonthStats (ts.map (setRange f g)) ps pe).vacationDays
        = (calculateMonthStats ts ps pe).vacationDays ∧
    (calculateMonthStats (ts.map (setRange f g)) ps pe).sickDays
        = (calculateMonthStats ts ps pe).sickDays ∧
    (calculateMonthStats (ts.map (setRange f g)) ps pe).absentDays
        = (calculateMonthStats ts ps pe).absentDays := by
  have h1 : (ts.map (setRange f g)).filter (inPeriod ps pe)
      = (ts.filter (inPeriod ps pe)).map (setRange f g) :=
    filter_map_comm _ _ (setRange_inPeriod f g ps pe) ts
  have h2 : ∀ w : WorkType,
      ((ts.filter (inPeriod ps pe)).map (setRange f g)).filter
          (fun t => decide (t.work_type = w))
        = ((ts.filter (inPeriod ps pe)).filter
            (fun t => decide (t.work_type = w))).map (setRange f g) :=
    fun w => filter_map_comm (setRange f g) (fun t => decide (t.work_type = w))
      (fun _ => rfl) (ts.filter (inPeriod ps pe))
  have h3 : ∀ l : List Timesheet, hoursSum (l.map (setRange f g)) = hoursSum l :=
    fun l => hoursSum_map_eq (setRange f g) (fun _ => rfl) l
  refine ⟨rfl, ?_, ?_, ?_, ?_, ?_, ?_, ?_⟩ <;>
    simp only [calculateMonthStats, h1, h2, h3, List.length_map]

/-- C6: the three hour sums together sum `total_hours` over exactly the
in-period records of the three work categories; rewriting the
`total_hours` of every leave record (vacation, sick, absence) changes no
hour sum, i.e. leave records contribute zero to hours; and each of
`vacationDays`/`sickDays`/`absentDays` counts exactly the in-period records
of its own leave category. -/
theorem calculateMonthStats_category_exclusive (ts : List Timesheet)
    (ps pe : JSDate) (f : Timesheet → Option ℚ) :
    (calculateMonthStats ts ps pe).regularHours
        + (calculateMonthStats ts ps pe).overtimeHours
        + (calculateMonthStats ts ps pe).weekendHours
      = hoursSum ((ts.filter (inPeriod ps pe)).filter isWorkCategory) ∧
    (calculateMonthStats (ts.map (setLeaveHours f)) ps pe).regularHours
      = (calculateMonthStats ts ps pe).regularHours ∧
    (calculateMonthStats (ts.map (setLeaveHours f)) ps pe).overtimeHours
      = (calculateMonthStats ts ps pe).overtimeHours ∧
    (calculateMonthStats (ts.map (setLeaveHours f)) ps pe).weekendHours
      = (calculateMonthStats ts ps pe).weekendHours ∧
    (calculateMonthStats ts ps pe).vacationDays
      = ts.countP (fun t => decide (t.work_type = .ferias) && inPeriod ps pe t) ∧
    (calculateMonthStats ts ps pe).sickDays
      = ts.countP (fun t => decide (t.work_type = .baixa) && inPeriod ps pe t) ∧
    (calculateMonthStats ts ps pe).absentDays
      = ts.countP (fun t => decide (t.work_type = .falta) && inPeriod ps pe t) := by
  have hinv : ∀ w : WorkType, isLeaveW w = false →
      ((ts.map (setLeaveHours f)).filter (inPeriod ps pe)).filter
          (fun t => decide (t.work_type = w))
        = (ts.filter (inPeriod ps pe)).filter (fun t => decide (t.work_type = w)) := by
    intro w hw
    rw [List.filter_filter, List.filter_filter]
    exact filter_map_id (setLeaveHours f)
      (fun t => decide (t.work_type = w) && inPeriod ps pe t)
      (setLeaveHours_pred f ps pe w) (setLeaveHours_fix f ps pe w hw) ts
  refine ⟨?_, ?_, ?_, ?_, ?_, ?_, ?_⟩
  · simpa only [calculateMonthStats] using
      hoursSum_filter_split (ts.filter (inPeriod ps pe))
  · simp only [calculateMonthStats, hinv WorkType.trabalho_normal rfl]
  · simp only [calculateMonthStats, hinv WorkType.trabalho_reduzido rfl]
  · simp only [calculateMonthStats, hinv WorkType.trabalho_fim_semana rfl]
  · simp only [calculateMonthStats, List.filter_filter,
      List.countP_eq_length_filter]
  · simp only [calculateMonthStats, List.filter_filter,
      List.countP_eq_length_filter]
  · simp only [calculateMonthStats, List.filter_filter,
      List.countP_eq_length_filter]

/-- C8: the calendar map `timesheetsByDate` resolves day collisions by
last-write-wins: looking up any day returns the record occurring last in the
input list among those covering that day (earlier records for the day are
overwritten), i.e. the first covering record of the reversed list. -/
theorem timesheetsByDate_last_wins (ts : List Timesheet) (k : Int)
    (h : ∀ t ∈ ts, entryOk t = true) :
    timesheetsByDate ts k
      = ts.reverse.find? (fun t => (daysOf t).contains k) := by
  induction ts using List.reverseRecOn with
  | nil => rfl
  | append_singleton l t ih =>
      have h' : ∀ x ∈ l, entryOk x = true :=
        fun x hx => h x (List.mem_append_left _ hx)
      have hfold : timesheetsByDate (l ++ [t]) k
          = if (daysOf t).contains k then some t else timesheetsByDate l k := by
        simp only [timesheetsByDate, List.foldl_append, List.foldl_cons,
          List.foldl_nil]
      rw [hfold, List.reverse_append, List.reverse_singleton,
        List.singleton_append]
      by_cases hc : (daysOf t).contains k = true
      · rw [if_pos hc]
        exact (List.find?_cons_of_pos (p := fun x => (daysOf x).contains k)
          l.reverse hc).symm
      · rw [if_neg hc, List.find?_cons_of_neg (p := fun x => (daysOf x).contains k)
          l.reverse hc]
        exact ih h'

/-- Witness for C8: two records on the same day 2024-03-01 (a regular-work
entry, then an absence) — the map holds the later `sampleAbsence` record for
that day. -/
theorem timesheetsByDate_last_wins_witness :
    timesheetsByDate [sampleRegular, sampleAbsence] (toDayNumber ⟨2024, 2, 1⟩)
      = ([sampleRegular, sampleAbsence].reverse).find?
          (fun t => (daysOf t).contains (toDayNumber ⟨2024, 2, 1⟩)) ∧
    timesheetsByDate [sampleRegular, sampleAbsence] (toDayNumber ⟨2024, 2, 1⟩)
      = some sampleAbsence :=
  ⟨timesheetsByDate_last_wins [sampleRegular, sampleAbsence]
      (toDayNumber ⟨2024, 2, 1⟩) (by decide),
    by decide⟩

end TimeWise
